import Mathlib

/-!
Shallow embedding of the session-segmentation and categorization core of the
`history_viewer` repository (Go sources: `models.go`, `parser.go`, and the
parser/segmenter/description code embedded in `export.go`), together with
theorems settling the frozen claims about the natural-language specification.

Conventions of the embedding:
* Go strings are Lean `String`s; most character-level work happens on `String.data`.
* `time.Time` values are Unix seconds (`Int`); `time.Duration` values are
  nanoseconds (`Int`), so `t2.Sub(t1)` becomes `(t2 - t1) * 1000000000`.
* Go maps are modelled as insertion-ordered association lists.  Where the Go
  code *iterates* a map (an unspecified, runtime-randomized order), the
  iteration order is an explicit function parameter (`MapIterOrder`); the
  canonical instantiation uses the insertion order.
* Process-global state (the custom category patterns) and environment lookups
  (`os.Getenv`) are explicit parameters.
* Compiled regular expressions are modelled by Lean functions implementing the
  concrete pattern's semantics; user-supplied patterns are abstract matchers
  `String → Bool` (the compilation/validation step happens upstream).
-/

/-- Go `unicode.IsSpace` restricted to the code points relevant here
(space, \t, \n, \v, \f, \r, NEL, NBSP); used by `strings.TrimSpace` and
`strings.Fields`. -/
def goSpace (c : Char) : Bool :=
  c = ' ' || c = Char.ofNat 9 || c = Char.ofNat 10 || c = Char.ofNat 11 ||
  c = Char.ofNat 12 || c = Char.ofNat 13 || c = Char.ofNat 133 || c = Char.ofNat 160

/-- RE2 `\s` character class: `[\t\n\f\r ]`. -/
def goRegexSpace (c : Char) : Bool :=
  c = ' ' || c = Char.ofNat 9 || c = Char.ofNat 10 || c = Char.ofNat 12 || c = Char.ofNat 13

/-- Split a character list into the maximal runs of characters not satisfying
`p` (the separators satisfying `p` are dropped, empty runs do not appear).
This is the shape shared by `strings.Fields` and by
`strings.Split(path, "/")` followed by filtering out empty components. -/
def runsSplit (p : Char → Bool) : List Char → List (List Char)
  | [] => []
  | c :: cs =>
    if p c then runsSplit p cs
    else
      match cs with
      | [] => [[c]]
      | d :: _ =>
        if p d then [c] :: runsSplit p cs
        else
          match runsSplit p cs with
          | t :: ts => (c :: t) :: ts
          | [] => [[c]]

/-- `strings.Fields`: the whitespace-separated fields of a string. -/
def goFields (s : String) : List (List Char) := runsSplit goSpace s.data

/-- `strings.TrimSpace`. -/
def trimSpaceGo (s : String) : String :=
  String.mk (((s.data.dropWhile goSpace).reverse.dropWhile goSpace).reverse)

/-- `strings.ToLower` (ASCII part, which is all the inputs here use). -/
def goToLower (s : String) : String := String.mk (s.data.map Char.toLower)

/-- `strings.TrimPrefix(s, "./")`. -/
def trimDotSlash (s : String) : String :=
  match s.data with
  | '.' :: '/' :: rest => String.mk rest
  | _ => s

/-- `strings.Trim(s, "\"'")`: strip leading and trailing double/single quotes. -/
def trimQuotes (s : String) : String :=
  let isQ : Char → Bool := fun c => c = '"' || c = Char.ofNat 39
  String.mk (((s.data.dropWhile isQ).reverse.dropWhile isQ).reverse)

/-- Boolean string-prefix test (Go `strings.HasPrefix`). -/
def strStarts (pre s : String) : Bool := pre.data.isPrefixOf s.data

/-- Go `filepath.IsAbs` on Unix: the path begins with a separator. -/
def isAbsPath (s : String) : Bool := strStarts "/" s

/-- Join path components with the separator (`strings.Join(parts, "/")`). -/
def joinSlash (parts : List (List Char)) : String :=
  String.mk (List.intercalate ['/'] parts)

/-- Go `path/filepath.Clean` for Unix paths: shortest lexical equivalent —
drop `.` and empty components, resolve `..` against preceding components
(dropping leading `..` when rooted), `"."` for an empty result. -/
def goClean (path : String) : String :=
  if path = "" then "."
  else
    let rooted := strStarts "/" path
    let comps := (runsSplit (fun c => c = '/') path.data).filter (fun c => c ≠ ['.'])
    let out := (comps.foldl (fun acc c =>
      if c = ['.', '.'] then
        match acc with
        | [] => if rooted then [] else [c]
        | a :: rest => if a = ['.', '.'] then c :: acc else rest
      else c :: acc) []).reverse
    if out = [] then (if rooted then "/" else ".")
    else (if rooted then "/" else "") ++ joinSlash out

/-- Go `filepath.Dir`: everything up to (and including) the final separator,
then `Clean`ed. -/
def goDir (path : String) : String :=
  goClean (String.mk ((path.data.reverse.dropWhile (fun c => c ≠ '/')).reverse))

/-- Go `filepath.Join` of two elements: empty elements are skipped and the
result is `Clean`ed; all-empty input yields the empty string. -/
def goJoin (a b : String) : String :=
  if a = "" && b = "" then ""
  else if a = "" then goClean b
  else if b = "" then goClean a
  else goClean (a ++ "/" ++ b)

/-- Go `filepath.Join` of a list of (here always non-empty) elements. -/
def goJoinList (parts : List (List Char)) : String := goClean (joinSlash parts)

/-! ## Categorizer (`models.go`) -/

/-- Regex `^(alt)\s` for a single alternative: the string starts with the
literal alternative followed by one whitespace character. -/
def altThenWs (alt : String) (s : String) : Bool :=
  alt.data.isPrefixOf s.data &&
    (match s.data.drop alt.data.length with
     | c :: _ => goRegexSpace c
     | [] => false)

/-- Regex `^(alt1|alt2|...)\s`: some alternative matches at the start,
followed by one whitespace character. -/
def matchTokWs (alts : List String) (s : String) : Bool :=
  alts.any (fun a => altThenWs a s)

/-- `-name` occurs at the head of `l`, followed by one whitespace character. -/
def hasDashNameWs (l : List Char) : Bool :=
  ['-', 'n', 'a', 'm', 'e'].isPrefixOf l &&
    (match l.drop 5 with
     | c :: _ => goRegexSpace c
     | [] => false)

/-- Scan for `-name\s` without crossing a newline (RE2 `.` does not match
`\n`); implements the `.*-name\s` tail of the `find.*-name` alternative. -/
def findNameScan : List Char → Bool
  | [] => false
  | c :: cs => hasDashNameWs (c :: cs) || (c ≠ Char.ofNat 10 && findNameScan cs)

/-- Regex alternative `find.*-name` followed by `\s`. -/
def findNameMatch (s : String) : Bool :=
  ['f', 'i', 'n', 'd'].isPrefixOf s.data && findNameScan (s.data.drop 4)

/-- A built-in category rule: the label and the compiled pattern's matcher. -/
structure BuiltinRule where
  category : String
  matcher : String → Bool

/-- A user-defined category rule, as held in the process-global
`customCategoryPatterns` after `SetCustomCategoryPatterns` compiled it
(rules whose pattern failed to compile were already dropped there). -/
structure CustomRule where
  category : String
  matcher : String → Bool

/-- The built-in `categoryPatterns` map of `models.go`, as an association
list in declaration order.  The Go map's iteration order is unspecified, so
`categorizeCommand` takes the iteration order as a parameter; this list is
the canonical (declaration-order) instantiation. -/
def builtinPatterns : List BuiltinRule := [
  ⟨"version-control", matchTokWs ["git", "hg", "svn", "bzr", "cvs"]⟩,
  ⟨"build", matchTokWs ["make", "cmake", "cargo", "npm", "yarn", "pnpm", "gradle", "mvn",
      "ant", "bazel", "go build", "go test", "gcc", "g++", "clang", "rustc", "javac"]⟩,
  ⟨"file-operations", matchTokWs ["cp", "mv", "rm", "mkdir", "rmdir", "touch", "chmod",
      "chown", "ln", "cat", "head", "tail", "less", "more", "dd", "rsync", "scp"]⟩,
  ⟨"navigation", matchTokWs ["cd", "ls", "pwd", "tree", "find", "locate", "which", "whereis"]⟩,
  ⟨"dev-tools", matchTokWs ["vim", "nvim", "emacs", "nano", "code", "subl", "idea",
      "pycharm", "gdb", "lldb", "valgrind", "strace", "ltrace"]⟩,
  ⟨"system-admin", matchTokWs ["sudo", "su", "systemctl", "service", "kill", "killall",
      "ps", "top", "htop", "free", "df", "du", "mount", "umount", "lsof", "netstat",
      "ss", "iptables", "ufw", "systemd"]⟩,
  ⟨"network", matchTokWs ["curl", "wget", "ssh", "scp", "rsync", "ping", "traceroute",
      "nslookup", "dig", "host", "telnet", "nc", "netcat", "ftp", "sftp"]⟩,
  ⟨"containers", matchTokWs ["docker", "podman", "kubectl", "k", "helm", "minikube",
      "kind", "k3s", "nerdctl", "containerd"]⟩,
  ⟨"database", matchTokWs ["psql", "mysql", "sqlite3", "mongo", "redis-cli", "mongosh",
      "clickhouse-client"]⟩,
  ⟨"editor", matchTokWs ["vim", "nvim", "emacs", "nano", "vi", "ed", "joe", "pico"]⟩,
  ⟨"search", fun s => matchTokWs ["grep", "egrep", "fgrep", "ag", "rg", "ack"] s ||
      findNameMatch s || matchTokWs ["locate"] s⟩,
  ⟨"package-manager", matchTokWs ["apt", "apt-get", "yum", "dnf", "pacman", "brew",
      "pip", "pip3", "npm", "yarn", "cargo", "gem", "composer"]⟩]

/-- `CategorizeCommand`: trim the text, try the custom patterns first in
configuration order, then the built-in patterns in the given iteration order,
and fall back to `"other"`. -/
def categorizeCommand (custom : List CustomRule) (builtins : List BuiltinRule)
    (cmd : String) : String :=
  let c := trimSpaceGo cmd
  match custom.find? (fun r => r.matcher c) with
  | some r => r.category
  | none =>
    match builtins.find? (fun r => r.matcher c) with
    | some r => r.category
    | none => "other"

/-- The label of the first user rule whose pattern matches, if any —
the spec's "first matching pattern wins" reading of the custom-rule loop. -/
def firstCustomMatch (rules : List CustomRule) (s : String) : Option String :=
  match rules with
  | [] => none
  | r :: rs => if r.matcher s then some r.category else firstCustomMatch rs s

/-- `GetBaseCommand`: first whitespace-delimited field, or the input itself
when there are no fields. -/
def GetBaseCommand (cmd : String) : String :=
  match goFields cmd with
  | p :: _ => String.mk p
  | [] => cmd

/-! ## Data model (`models.go`) -/

/-- `HistoryEntry`.  Category labels are strings (`CommandCategory` is a
string type in Go); the out-of-scope metadata fields (notes, tags) are
omitted. -/
structure HistoryEntry where
  id : Nat
  timestamp : Int
  duration : Int
  command : String
  directory : String
  category : String
  baseCommand : String
  sessionID : Nat
deriving Repr, DecidableEq

/-- `Session`.  `categories` models the Go count map as an insertion-ordered
association list; out-of-scope metadata fields are omitted. -/
structure Session where
  id : Nat
  startTime : Int
  endTime : Int
  duration : Int
  commands : List HistoryEntry
  directories : List String
  categories : List (String × Nat)
  description : String
deriving Repr, DecidableEq

/-- `SessionHeuristics` (config.go). -/
structure SessionHeuristics where
  timeoutMinutes : Int
  directoryChangeBreaksSession : Bool
  categoryChangeThreshold : Int
  minCommandsPerSession : Int
  maxSessionDuration : Int
  shortBreakMinutes : Int
deriving Repr, DecidableEq

/-- The configuration fields the core reads.  `sessionTimeout` is a
`time.Duration` in nanoseconds. -/
structure Config where
  sessionTimeout : Int
  sessionHeuristics : SessionHeuristics
  homeDir : String
deriving Repr, DecidableEq

/-- `t2.Sub(t1)` for Unix-second timestamps, in nanoseconds. -/
def subNs (t2 t1 : Int) : Int := (t2 - t1) * 1000000000

/-- The iteration orders of the four Go maps that the core iterates.  Each
field turns the insertion-ordered key (or entry) list into the order the
`range` loop visits; Go guarantees only that this is *some* enumeration. -/
structure MapIterOrder where
  dirOrder : List String → List String
  catOrder : List (String × Nat) → List (String × Nat)
  cmdOrder : List (String × Nat) → List (String × Nat)
  dirCountOrder : List (String × Nat) → List (String × Nat)

/-- The canonical iteration order: insertion order. -/
def canonicalOrd : MapIterOrder := ⟨id, id, id, id⟩

/-- The environment variables `generateSessionDescription` reads via
`os.Getenv`. -/
structure DescEnv where
  home : String
  user : String

/-- Increment a key's count in an insertion-ordered association list
(model of `m[k]++` on a Go map). -/
def bumpCount (m : List (String × Nat)) (k : String) : List (String × Nat) :=
  match m with
  | [] => [(k, 1)]
  | (k', v) :: rest => if k' = k then (k', v + 1) :: rest else (k', v) :: bumpCount rest k

/-- Add a key to an insertion-ordered key set (model of `m[k] = true`). -/
def insertKey (m : List String) (k : String) : List String :=
  if m.contains k then m else m ++ [k]

/-! ## Description generator (`export.go`) -/

/-- One step of the inner loop of the Go sort: compare slots `i` and `j`
(`j > i`), swapping when slot `j` holds the strictly larger count. -/
def exchangeStep (i : Nat) (a : Array (String × Nat)) (j : Nat) : Array (String × Nat) :=
  if (a.get! j).2 > (a.get! i).2 then (a.set! i (a.get! j)).set! j (a.get! i) else a

/-- The exchange sort used (twice, with identical code shape) in
`extractTopActivities` and `generateSessionDescription`:
`for i … for j := i+1 … if a[j].count > a[i].count swap`.
Descending by count; ties keep whatever order the iteration produced. -/
def exchangeSortByCountDesc (l : List (String × Nat)) : List (String × Nat) :=
  let a := l.toArray
  let n := a.size
  ((List.range n).foldl (fun a i =>
      (List.range' (i + 1) (n - (i + 1))).foldl (fun a j => exchangeStep i a j) a) a).toList

/-- The `cmdCounts` map of `extractTopActivities`: count the cleaned base
commands (lower-cased, `./` stripped), skipping empty results. -/
def activityCmdCounts (commands : List HistoryEntry) : List (String × Nat) :=
  commands.foldl (fun m cmd =>
    let base := trimDotSlash (goToLower cmd.baseCommand)
    if base ≠ "" then bumpCount m base else m) []

/-- `extractTopActivities`. -/
def extractTopActivities (ord : MapIterOrder) (s : Session) : String :=
  if s.commands.length = 0 then "work"
  else
    let topCmds := exchangeSortByCountDesc (ord.cmdOrder (activityCmdCounts s.commands))
    match topCmds with
    | [] => "work"
    | t0 :: rest =>
      if t0.2 > s.commands.length / 2 then t0.1
      else
        match rest with
        | t1 :: _ =>
          if t1.2 ≥ s.commands.length / 5 then t0.1 ++ " " ++ t1.1 else t0.1
        | [] => t0.1

/-- `findMostActiveDirectory`: the directory with the most commands; the
`dirCounts` map is iterated in the order given by `ord.dirCountOrder`,
starting from `Directories[0]` with count 0 and taking strict improvements. -/
def findMostActiveDirectory (ord : MapIterOrder) (s : Session) : String :=
  match s.directories with
  | [] => ""
  | [d] => d
  | d0 :: _ =>
    let dirCounts := s.commands.foldl (fun m c => bumpCount m c.directory) []
    ((ord.dirCountOrder dirCounts).foldl
      (fun acc p => if p.2 > acc.2 then p else acc) (d0, 0)).1

/-- `truncateDirectoryPath`. -/
def truncateDirectoryPath (fullPath homeDir : String) : String :=
  if fullPath = homeDir then "~"
  else
    let parts := runsSplit (fun c => c = '/') (goClean fullPath).data
    if parts = [] then "."
    else
      let parts :=
        if strStarts (homeDir ++ "/") fullPath then
          let homeParts := runsSplit (fun c => c = '/') (goClean homeDir).data
          if parts.length > homeParts.length then parts.drop homeParts.length else parts
        else parts
      if parts.length = 1 then String.mk (parts.headD [])
      else if parts.length = 2 then String.mk (parts.getLastD [])
      else if parts.length = 3 then goJoinList (parts.drop (parts.length - 2))
      else if parts.length = 4 then goJoinList (parts.drop (parts.length - 2))
      else goJoinList (parts.drop (parts.length - 3))

/-- Modelled from the spec: `GetCategoryDisplayName` is called by
`generateSessionDescription` but its definition is not among the provided
sources.  Per §4.4 of the spec it maps an internal category label to a
human-friendly title (e.g. `version-control` → `Version Control`, and the
test suite also pins `build` → `Build`); unknown labels are left as-is. -/
def GetCategoryDisplayName (c : String) : String :=
  if c = "version-control" then "Version Control"
  else if c = "build" then "Build"
  else if c = "file-operations" then "File Operations"
  else if c = "navigation" then "Navigation"
  else if c = "dev-tools" then "Dev Tools"
  else if c = "system-admin" then "System Admin"
  else if c = "network" then "Network"
  else if c = "containers" then "Containers"
  else if c = "database" then "Database"
  else if c = "editor" then "Editor"
  else if c = "search" then "Search"
  else if c = "package-manager" then "Package Manager"
  else if c = "other" then "Other"
  else c

/-- `generateSessionDescription` (the full version in `export.go`):
`"shortDir: activities [categories]"`.  `env` models the `os.Getenv` calls
for `HOME` and `USER`; `ord.catOrder` models the iteration order of the
session's category map. -/
def generateSessionDescription (ord : MapIterOrder) (env : DescEnv) (s : Session) : String :=
  if s.commands.length = 0 then "Empty session"
  else
    let activities := extractTopActivities ord s
    let primaryDir := findMostActiveDirectory ord s
    let homeDir := if env.home = "" then "/Users/" ++ env.user else env.home
    let shortDir := truncateDirectoryPath primaryDir homeDir
    let categoryStr :=
      if s.categories.length > 0 then
        match exchangeSortByCountDesc (ord.catOrder s.categories) with
        | [] => ""
        | t0 :: rest =>
          let s1 := " [" ++ GetCategoryDisplayName t0.1
          (match rest with
           | t1 :: _ =>
             if t1.2 ≥ s.commands.length / 5 then
               s1 ++ ", " ++ GetCategoryDisplayName t1.1
             else s1
           | [] => s1) ++ "]"
      else ""
    shortDir ++ ": " ++ activities ++ categoryStr

/-! ## Session segmenter (`GroupIntoSessions`) -/

/-- `getUniqueDirectories`: iterate the `dirSet` map, appending each key.
The result is the key set in Go's unspecified iteration order; `dirSet` is
kept in insertion order and `order` supplies the iteration permutation. -/
def getUniqueDirectories (order : List String → List String)
    (dirSet : List String) : List String :=
  order dirSet

/-- `isRelatedDirectory`: equal, or one a sub-path of the other, or sharing
the same immediate parent. -/
def isRelatedDirectory (dir1 dir2 : String) : Bool :=
  if dir1 = dir2 then true
  else if strStarts (dir1 ++ "/") dir2 then true
  else if strStarts (dir2 ++ "/") dir1 then true
  else if goDir dir1 = goDir dir2 then true
  else false

/-- A freshly started `currentSession` (Go zero values for the fields the
constructor does not set). -/
def initSession (id : Nat) (startTime : Int) : Session :=
  { id := id, startTime := startTime, endTime := 0, duration := 0,
    commands := [], directories := [], categories := [], description := "" }

/-- The loop state of `GroupIntoSessions`: the emitted sessions, the
in-progress session, the `dirSet` keys in insertion order, the
consecutive-category-change counter and the last category seen. -/
structure SegState where
  sessions : List Session
  cur : Session
  dirSet : List String
  ccc : Int
  lastCategory : String
deriving Repr, DecidableEq

/-- The four break heuristics, evaluated in priority order with each check
skipped once `shouldBreak` is already true; returns the break decision and
the updated consecutive-category-change counter. -/
def breakDecision (cfg : Config) (prev e : HistoryEntry) (curStartTime : Int)
    (ccc : Int) (lastCategory : String) : Bool × Int :=
  let shouldBreak := false
  let timeSince := subNs e.timestamp prev.timestamp
  let shouldBreak := if timeSince > cfg.sessionTimeout then true else shouldBreak
  let shouldBreak :=
    if cfg.sessionHeuristics.directoryChangeBreaksSession && !shouldBreak then
      if !isRelatedDirectory prev.directory e.directory then true else shouldBreak
    else shouldBreak
  let cccBreak :=
    if cfg.sessionHeuristics.categoryChangeThreshold > 0 && !shouldBreak then
      if e.category ≠ lastCategory ∧ lastCategory ≠ "" then
        let ccc := ccc + 1
        (if ccc ≥ cfg.sessionHeuristics.categoryChangeThreshold then true else shouldBreak, ccc)
      else (shouldBreak, 0)
    else (shouldBreak, ccc)
  let shouldBreak := cccBreak.1
  let shouldBreak :=
    if cfg.sessionHeuristics.maxSessionDuration > 0 && !shouldBreak then
      if subNs e.timestamp curStartTime >
          cfg.sessionHeuristics.maxSessionDuration * 60 * 1000000000 then true
      else shouldBreak
    else shouldBreak
  (shouldBreak, cccBreak.2)

/-- Finalizing `currentSession` on a confirmed break (or at end of input):
set `EndTime`, `Duration`, `Directories` (map iteration), then compute the
description from the finalized fields. -/
def finalizeSession (ord : MapIterOrder) (env : DescEnv) (endTime : Int)
    (cur : Session) (dirSet : List String) : Session :=
  let s := { cur with
               endTime := endTime,
               duration := subNs endTime cur.startTime,
               directories := getUniqueDirectories ord.dirOrder dirSet }
  { s with description := generateSessionDescription ord env s }

/-- The tail of every loop iteration: record the last category, stamp the
entry's `SessionID`, append it to the current session, bump its category
count and add its directory to `dirSet`. -/
def appendEntry (st : SegState) (e : HistoryEntry) : SegState :=
  { st with
      lastCategory := e.category,
      cur := { st.cur with
                 commands := st.cur.commands ++ [{ e with sessionID := st.cur.id }],
                 categories := bumpCount st.cur.categories e.category },
      dirSet := insertKey st.dirSet e.directory }

/-- One iteration of the `GroupIntoSessions` loop for `i > 0`: evaluate the
break decision against the previous entry; on a break, finalize the current
session only when it meets the minimum size (otherwise nothing is emitted
or reset); then append the entry. -/
def segStep (ord : MapIterOrder) (env : DescEnv) (cfg : Config)
    (prev e : HistoryEntry) (st : SegState) : SegState :=
  let bd := breakDecision cfg prev e st.cur.startTime st.ccc st.lastCategory
  let st := { st with ccc := bd.2 }
  let st :=
    if bd.1 ∧ (st.cur.commands.length : Int) ≥ cfg.sessionHeuristics.minCommandsPerSession then
      let sessions := st.sessions ++ [finalizeSession ord env prev.timestamp st.cur st.dirSet]
      { sessions := sessions,
        cur := initSession (sessions.length + 1) e.timestamp,
        dirSet := [],
        ccc := 0,
        lastCategory := st.lastCategory }
    else st
  appendEntry st e

/-- The loop over `entries[1:]`, followed by the final minimum-size check
that emits whatever remains (`prev` ends up being the last input entry,
whose timestamp becomes the final session's `EndTime`). -/
def segLoop (ord : MapIterOrder) (env : DescEnv) (cfg : Config) :
    HistoryEntry → List HistoryEntry → SegState → List Session
  | prev, [], st =>
    if (st.cur.commands.length : Int) ≥ cfg.sessionHeuristics.minCommandsPerSession then
      st.sessions ++ [finalizeSession ord env prev.timestamp st.cur st.dirSet]
    else st.sessions
  | prev, e :: rest, st => segLoop ord env cfg e rest (segStep ord env cfg prev e st)

/-- `GroupIntoSessions`. -/
def groupIntoSessions (ord : MapIterOrder) (env : DescEnv) (cfg : Config)
    (entries : List HistoryEntry) : List Session :=
  match entries with
  | [] => []
  | e0 :: rest =>
    let st0 : SegState :=
      { sessions := [], cur := initSession 1 e0.timestamp,
        dirSet := [], ccc := 0, lastCategory := "" }
    segLoop ord env cfg e0 rest (appendEntry st0 e0)

/-! ## Log parser (`ParseHistory`) -/

/-- Digits to a number, clamped to the 64-bit maximum the way
`strconv.ParseInt`/`Atoi` clamp on overflow (the error is discarded with
`_` in the source). -/
def digitsToI64 (ds : List Char) : Int :=
  Int.ofNat (min (ds.foldl (fun n c => n * 10 + (c.toNat - 48)) 0) 9223372036854775807)

/-- `historyLineRegex` = `^:\s*(\d+):(\d+);(.*)$` applied to one line:
returns `(timestamp, duration, command-text)` when the line matches. -/
def parseRecordLine (line : String) : Option (Int × Int × String) :=
  match line.data with
  | ':' :: r0 =>
    let r1 := r0.dropWhile goRegexSpace
    let ds1 := r1.takeWhile Char.isDigit
    if ds1 = [] then none
    else
      match r1.drop ds1.length with
      | ':' :: r2 =>
        let ds2 := r2.takeWhile Char.isDigit
        if ds2 = [] then none
        else
          match r2.drop ds2.length with
          | ';' :: cmd => some (digitsToI64 ds1, digitsToI64 ds2, String.mk cmd)
          | _ => none
      | _ => none
  | _ => none

/-- The characters at which `cdRegex`'s capture group `[^;&|]+` stops. -/
def cdStop (c : Char) : Bool := c = ';' || c = '&' || c = '|'

/-- `cdRegex` = `^\s*cd\s+([^;&|]+)`: the captured group, if the command
matches.  When the character after the maximal whitespace run is a stop
character (or the string ends there), the regex backtracks one whitespace
character into the capture, so the capture becomes that single whitespace
character provided the run had length at least 2. -/
def cdArg (command : String) : Option String :=
  match command.data.dropWhile goRegexSpace with
  | 'c' :: 'd' :: rest =>
    let ws := rest.takeWhile goRegexSpace
    if ws.length = 0 then none
    else
      match rest.drop ws.length with
      | a :: as =>
        if cdStop a then
          if ws.length ≥ 2 then ws.getLast?.map (fun c => String.mk [c]) else none
        else some (String.mk ((a :: as).takeWhile (fun c => !cdStop c)))
      | [] => if ws.length ≥ 2 then ws.getLast?.map (fun c => String.mk [c]) else none
  | _ => none

/-- `resolveDirectory`. -/
def resolveDirectory (homeDir currentDir newDirRaw : String) : String :=
  let newDir := trimQuotes newDirRaw
  if newDir = "~" || newDir = "" then homeDir
  else if strStarts "~/" newDir then goJoin homeDir (String.mk (newDir.data.drop 2))
  else if isAbsPath newDir then goClean newDir
  else if newDir = ".." then goDir currentDir
  else if newDir = "." then currentDir
  else goClean (goJoin currentDir newDir)

/-- The `cd`-tracking block of `ParseHistory`: when the assembled command
matches `cdRegex`, resolve the trimmed capture against the current
directory; otherwise leave the current directory unchanged. -/
def applyCd (homeDir currentDir command : String) : String :=
  match cdArg command with
  | some a => resolveDirectory homeDir currentDir (trimSpaceGo a)
  | none => currentDir

/-- What the parser passes to the categorizer: the model of the process
configuration (`HomeDir`, the compiled custom patterns, and the built-in
map's iteration order). -/
structure ParserParams where
  homeDir : String
  custom : List CustomRule
  builtinOrder : List BuiltinRule

/-- Build one `HistoryEntry` the way `ParseHistory` does (`SessionID` is the
zero value until the segmenter assigns it). -/
def mkEntry (P : ParserParams) (id : Nat) (ts dur : Int)
    (command directory : String) : HistoryEntry :=
  { id := id, timestamp := ts, duration := dur, command := command,
    directory := directory,
    category := categorizeCommand P.custom P.builtinOrder command,
    baseCommand := GetBaseCommand command, sessionID := 0 }

/-- The line scan of `ParseHistory`, as a single pass with an explicit
"pending record" accumulator `(ts, dur, c0, conts)` holding the state of the
source's inner `for scanner.Scan()` loop (the matched record's timestamp,
duration, raw command text and the continuation lines collected so far):

* no pending record, non-matching line: skipped;
* no pending record, matching line: it becomes the pending record (the
  source enters the inner loop);
* pending record, non-matching line: collected as a continuation;
* pending record, matching line `l`: the inner loop breaks — the pending
  record is emitted (continuations joined by newlines, `cd` tracking on the
  assembled text), and then, because the source saved `l` in `line` and
  processes it right after ("we can't unscan"), `l` is emitted immediately
  from its raw text with no continuation collection of its own; the scan
  resumes with no pending record;
* end of input with a pending record: the pending record is emitted, and —
  since the inner loop exited without touching `line`, which still holds the
  pending record's own matching line — that same line is processed a second
  time from its raw text (its `cd` command, if any, is applied again). -/
def parseLines (P : ParserParams) :
    List String → String → Nat → Option (Int × Int × String × List String) →
    List HistoryEntry
  | [], _, _, none => []
  | [], cur, id, some (ts, dur, c0, conts) =>
    let command := conts.foldl (fun a c => a ++ "\n" ++ c) c0
    let cur1 := applyCd P.homeDir cur command
    let cur2 := applyCd P.homeDir cur1 c0
    [mkEntry P id ts dur command cur1, mkEntry P (id + 1) ts dur c0 cur2]
  | l :: ls, cur, id, none =>
    match parseRecordLine l with
    | none => parseLines P ls cur id none
    | some (ts, dur, c0) => parseLines P ls cur id (some (ts, dur, c0, []))
  | l :: ls, cur, id, some (ts, dur, c0, conts) =>
    match parseRecordLine l with
    | none => parseLines P ls cur id (some (ts, dur, c0, conts ++ [l]))
    | some (ts2, dur2, c2) =>
      let command := conts.foldl (fun a c => a ++ "\n" ++ c) c0
      let cur1 := applyCd P.homeDir cur command
      let cur2 := applyCd P.homeDir cur1 c2
      mkEntry P id ts dur command cur1 ::
        mkEntry P (id + 1) ts2 dur2 c2 cur2 ::
          parseLines P ls cur2 (id + 2) none

/-- The parse error taxonomy of the spec's §7 that reaches the caller. -/
inductive ParseError where
  | sourceUnavailable
deriving Repr, DecidableEq

/-- `ParseHistory`.  The file-system boundary is modelled by an `Option`:
`none` stands for a log source that cannot be opened or read (`os.Open` or
`scanner.Err` failing), `some lines` for the readable line-oriented
content.  The current directory starts at the configured home directory and
ids start at 1. -/
def parseHistory (P : ParserParams) (src : Option (List String)) :
    Except ParseError (List HistoryEntry) :=
  match src with
  | none => .error .sourceUnavailable
  | some lines => .ok (parseLines P lines P.homeDir 1 none)

/-! ## Fixtures for witnesses and counterexamples -/

set_option maxRecDepth 200000

/-- Parser parameters with no custom rules and the canonical built-in order. -/
def exParams : ParserParams := ⟨"/home/u", [], builtinPatterns⟩

/-- A concrete environment for description generation. -/
def exEnv : DescEnv := ⟨"/home/u", "u"⟩

/-- A plain entry for segmenter fixtures. -/
def mkPlainEntry (id : Nat) (ts : Int) (dir : String) : HistoryEntry :=
  ⟨id, ts, 0, "x a", dir, "other", "x", 0⟩

/-- 30-minute timeout, all optional heuristics off, minimum 1. -/
def c6Cfg : Config := ⟨1800000000000, ⟨30, false, 0, 1, 0, 5⟩, "/home/u"⟩

def c6e1 : HistoryEntry := mkPlainEntry 1 0 "/h"

def c6e2 : HistoryEntry := mkPlainEntry 2 300 "/h"

def c6e3 : HistoryEntry := mkPlainEntry 3 2400 "/h"

/-- Records at t = 0, 5 and 40 minutes. -/
def c6Entries : List HistoryEntry := [c6e1, c6e2, c6e3]

/-! ## C5 — user-defined rules win over built-ins -/

/-- `firstCustomMatch` agrees with the `find?` in `categorizeCommand`. -/
theorem firstCustomMatch_eq_find (rules : List CustomRule) (s : String) :
    firstCustomMatch rules s = (rules.find? (fun r => r.matcher s)).map (fun r => r.category) := by
  induction rules with
  | nil => rfl
  | cons r rs ih =>
    by_cases hr : r.matcher s
    · rw [firstCustomMatch, if_pos hr]
      simp [List.find?_cons, hr]
    · rw [firstCustomMatch, if_neg (by simp [hr]), ih]
      simp [List.find?_cons, hr]

/-- C5: for every command text, whenever some configured user rule matches the
trimmed text, `CategorizeCommand` returns the label of the *first* matching
user rule, for *every* iteration order of the built-in rules — user rules are
evaluated first, in configuration order, and the first match short-circuits
everything else, built-ins included. -/
theorem c5_user_rules_win (custom : List CustomRule) (builtins : List BuiltinRule)
    (cmd : String) (cat : String)
    (h : firstCustomMatch custom (trimSpaceGo cmd) = some cat) :
    categorizeCommand custom builtins cmd = cat := by
  rw [firstCustomMatch_eq_find] at h
  rw [categorizeCommand]
  rcases hf : custom.find? (fun r => r.matcher (trimSpaceGo cmd)) with - | r
  · rw [hf] at h; simp at h
  · rw [hf] at h
    simp at h
    simp [hf, h]

/-- A user rule for `^git\s` labelled `my-git`, as in the repository's
`TestCategorizeCommand_CustomOverridesBuiltIn`. -/
def c5Custom : List CustomRule := [⟨"my-git", fun s => altThenWs "git" s⟩]

/-- Witness for C5: `git status` matches both the user rule and the built-in
version-control rule; with the user rule configured the user label wins. -/
theorem c5_user_rules_win_witness :
    categorizeCommand c5Custom builtinPatterns "git status" = "my-git" ∧
    categorizeCommand [] builtinPatterns "git status" = "version-control" :=
  ⟨c5_user_rules_win c5Custom builtinPatterns "git status" "my-git" (by decide), by decide⟩

/-! ## C8 — base command extraction -/

/-- Counterexample for C8: on a whitespace-only (non-empty) input,
`GetBaseCommand` returns the input unchanged, not the empty string —
`strings.Fields` yields no fields and the function falls back to `return cmd`. -/
theorem c8_whitespace_counterexample :
    GetBaseCommand " " = " " ∧ GetBaseCommand " " ≠ "" := by decide

theorem runsSplit_all_sep (p : Char → Bool) (l : List Char) (h : ∀ c ∈ l, p c) :
    runsSplit p l = [] := by
  induction l with
  | nil => rfl
  | cons c cs ih =>
    rw [runsSplit.eq_def]
    simp [h c (by simp), ih (fun d hd => h d (by simp [hd]))]

theorem runsSplit_append_sep (p : Char → Bool) (l x : List Char) (h : ∀ c ∈ l, p c) :
    runsSplit p (l ++ x) = runsSplit p x := by
  induction l with
  | nil => rfl
  | cons c cs ih =>
    rw [List.cons_append, runsSplit.eq_def]
    simp [h c (by simp), ih (fun d hd => h d (by simp [hd]))]

theorem runsSplit_token (p : Char → Bool) (t r : List Char) (ht : t ≠ [])
    (h1 : ∀ c ∈ t, ¬ p c) (h2 : ∀ c, r.head? = some c → p c) :
    ∃ ts, runsSplit p (t ++ r) = t :: ts := by
  induction t with
  | nil => exact absurd rfl ht
  | cons c cs ih =>
    have hc : ¬ p c := h1 c (by simp)
    cases cs with
    | nil =>
      cases r with
      | nil => exact ⟨[], by rw [runsSplit.eq_def]; simp [hc]⟩
      | cons d ds =>
        have hd : p d := h2 d rfl
        refine ⟨runsSplit p (d :: ds), ?_⟩
        rw [List.cons_append, List.nil_append, runsSplit.eq_def]
        simp [hc, hd]
    | cons c2 cs2 =>
      have hc2 : ¬ p c2 := h1 c2 (by simp)
      obtain ⟨ts, hts⟩ := ih (by simp) (fun d hd => h1 d (by simp [hd]))
      refine ⟨ts, ?_⟩
      rw [List.cons_append] at hts
      rw [List.cons_append, runsSplit.eq_def]
      simp only [List.cons_append]
      rw [if_neg (by simp [hc])]
      rw [hts]
      simp [hc2]

/-- C8 (corrected): `base_command` returns the first whitespace-delimited
token of the text; on an input consisting only of whitespace characters
(including the empty string) it returns the input *unchanged* — so the empty
string maps to the empty string, but non-empty whitespace-only input is
returned as-is rather than as the empty string. -/
theorem c8_base_command (cmd : String) :
    ((∀ c ∈ cmd.data, goSpace c) → GetBaseCommand cmd = cmd) ∧
    (∀ l t r : List Char, cmd.data = l ++ t ++ r → (∀ c ∈ l, goSpace c) →
      t ≠ [] → (∀ c ∈ t, ¬ goSpace c) → (∀ c, r.head? = some c → goSpace c) →
      GetBaseCommand cmd = String.mk t) := by
  constructor
  · intro h
    rw [GetBaseCommand, goFields, runsSplit_all_sep goSpace cmd.data h]
  · intro l t r hsplit hl ht h1 h2
    obtain ⟨ts, hts⟩ := runsSplit_token goSpace t r ht h1 h2
    rw [GetBaseCommand, goFields, hsplit, List.append_assoc,
      runsSplit_append_sep goSpace l (t ++ r) hl, hts]

/-- Witness for C8: `" ab c"` has first token `"ab"`, and the whitespace-only
string `"  "` is returned unchanged. -/
theorem c8_base_command_witness :
    GetBaseCommand " ab c" = String.mk ['a', 'b'] ∧ GetBaseCommand "  " = "  " :=
  ⟨(c8_base_command " ab c").2 [' '] ['a', 'b'] [' ', 'c'] (by decide) (by decide)
      (by decide) (by decide)
      (by intro c hc; injection hc with h; subst h; decide),
   (c8_base_command "  ").1 (by decide)⟩

/-! ## C6 — timeout heuristic -/

/-- C6: the timeout heuristic is always active and checked first — for every
configuration and state, a gap strictly exceeding the configured session
timeout makes the break decision fire; and on the spec's concrete example
(records at 0, 5 and 40 minutes, 30-minute timeout, minimum 1) segmentation
yields exactly two sessions, the first containing the first two records. -/
theorem c6_timeout_break :
    (∀ (cfg : Config) (prev e : HistoryEntry) (curStartTime ccc : Int)
        (lastCategory : String),
        subNs e.timestamp prev.timestamp > cfg.sessionTimeout →
        (breakDecision cfg prev e curStartTime ccc lastCategory).1 = true) ∧
    (groupIntoSessions canonicalOrd exEnv c6Cfg c6Entries).map
      (fun s => s.commands.map (fun c => c.id)) = [[1, 2], [3]] := by
  constructor
  · intro cfg prev e curStartTime ccc lastCategory h
    rw [breakDecision]
    simp only [if_pos h]
    simp
  · decide

/-- Witness for C6: the gap between the records at 5 and 40 minutes exceeds
the 30-minute timeout, so the break decision fires there. -/
theorem c6_timeout_break_witness :
    (breakDecision c6Cfg c6e2 c6e3 0 0 "other").1 = true :=
  c6_timeout_break.1 c6Cfg c6e2 c6e3 0 0 "other" (by decide)

/-! ## C9 — error taxonomy of the parse -/

/-- C9: the parse fails exactly when the log source is unavailable (the
file-system boundary is modelled by the `Option` argument of
`parseHistory`); a line that matches no record shape while no record is
pending (so it is not a continuation) is skipped without affecting the
parse.  Segmentation and description generation are total functions of this
embedding by construction. -/
theorem c9_parse_errors :
    (∀ (P : ParserParams) (src : Option (List String)),
        parseHistory P src = .error .sourceUnavailable ↔ src = none) ∧
    (∀ (P : ParserParams) (l : String) (ls : List String) (cur : String) (id : Nat),
        parseRecordLine l = none →
        parseLines P (l :: ls) cur id none = parseLines P ls cur id none) := by
  constructor
  · intro P src
    cases src with
    | none => simp [parseHistory]
    | some lines => simp [parseHistory]
  · intro P l ls cur id h
    rw [parseLines, h]

/-- Witness for C9: a malformed line ahead of well-formed records is skipped. -/
theorem c9_parse_errors_witness :
    parseLines exParams ["garbage", ": 5:1;ls -la", ": 6:1;pwd"] "/h" 1 none =
      parseLines exParams [": 5:1;ls -la", ": 6:1;pwd"] "/h" 1 none :=
  c9_parse_errors.2 exParams "garbage" [": 5:1;ls -la", ": 6:1;pwd"] "/h" 1 (by decide)

/-! ## C7 — the "work" fallback -/

/-- A session of 10 commands: five `a` and five distinct singletons.  No
command exceeds half (5 is not > 10/2) and the second-most-frequent count 1
is below the one-fifth threshold 10/5 = 2. -/
def c7Session : Session :=
  { id := 1, startTime := 0, endTime := 9, duration := 9000000000,
    commands :=
      [⟨1, 0, 0, "a", "/h", "other", "a", 0⟩, ⟨2, 1, 0, "a", "/h", "other", "a", 0⟩,
       ⟨3, 2, 0, "a", "/h", "other", "a", 0⟩, ⟨4, 3, 0, "a", "/h", "other", "a", 0⟩,
       ⟨5, 4, 0, "a", "/h", "other", "a", 0⟩, ⟨6, 5, 0, "b", "/h", "other", "b", 0⟩,
       ⟨7, 6, 0, "c", "/h", "other", "c", 0⟩, ⟨8, 7, 0, "d", "/h", "other", "d", 0⟩,
       ⟨9, 8, 0, "e", "/h", "other", "e", 0⟩, ⟨10, 9, 0, "f", "/h", "other", "f", 0⟩],
    directories := ["/h"], categories := [("other", 10)], description := "" }

/-- Counterexample for C7: in `c7Session` no cleaned base command accounts
for strictly more than half of the 10 commands and the second-most-frequent
command is below the one-fifth threshold, yet the activity string is the
top command `"a"`, not the claimed fallback `"work"` — the source's final
`return topCmds[0].cmd` wins whenever any base command was counted. -/
theorem c7_work_fallback_counterexample :
    activityCmdCounts c7Session.commands =
      [("a", 5), ("b", 1), ("c", 1), ("d", 1), ("e", 1), ("f", 1)] ∧
    ¬ 5 > c7Session.commands.length / 2 ∧
    ¬ 1 ≥ c7Session.commands.length / 5 ∧
    extractTopActivities canonicalOrd c7Session = "a" ∧
    extractTopActivities canonicalOrd c7Session ≠ "work" := by decide

/-- C7 (corrected): in a non-empty session where the most frequent cleaned
base command does not exceed half of the commands and the second-most
frequent one is below the one-fifth threshold, the activity string is the
most frequent command *alone* (the head of the sorted count list), not
`"work"`; `"work"` is returned only when no base command was counted at all
(every cleaned base command was empty). -/
theorem c7_no_qualifier_top_command (ord : MapIterOrder) (s : Session)
    (hne : ¬ s.commands.length = 0) (t0 : String × Nat) (rest : List (String × Nat))
    (hsort : exchangeSortByCountDesc (ord.cmdOrder (activityCmdCounts s.commands)) =
      t0 :: rest)
    (hhalf : ¬ t0.2 > s.commands.length / 2)
    (hfifth : ∀ t1, rest.head? = some t1 → ¬ t1.2 ≥ s.commands.length / 5) :
    extractTopActivities ord s = t0.1 := by
  rw [extractTopActivities, if_neg hne]
  simp only [hsort]
  rw [if_neg hhalf]
  cases rest with
  | nil => rfl
  | cons t1 ts => simp [hfifth t1 rfl]

/-- Witness for C7's corrected statement, at the same concrete session. -/
theorem c7_no_qualifier_top_command_witness :
    extractTopActivities canonicalOrd c7Session = "a" :=
  c7_no_qualifier_top_command canonicalOrd c7Session (by decide) ("a", 5)
    [("b", 1), ("c", 1), ("d", 1), ("e", 1), ("f", 1)] (by decide) (by decide)
    (by intro t1 h; injection h with h; subst h; decide)

/-! ## C1 — sub-minimum sessions are not discarded -/

/-- 30-minute timeout, minimum 3 commands per session. -/
def c1Cfg : Config := ⟨1800000000000, ⟨30, false, 0, 3, 0, 5⟩, "/home/u"⟩

def c1e1 : HistoryEntry := mkPlainEntry 1 0 "/h"

def c1e2 : HistoryEntry := mkPlainEntry 2 300 "/h"

def c1e3 : HistoryEntry := mkPlainEntry 3 3600 "/h"

def c1e4 : HistoryEntry := mkPlainEntry 4 3660 "/h"

def c1e5 : HistoryEntry := mkPlainEntry 5 3720 "/h"

/-- Records at 0, 5, 60, 61 and 62 minutes: the 55-minute gap fires a break
between the second and third record while only 2 commands (fewer than the
minimum 3) are accumulated. -/
def c1Entries : List HistoryEntry := [c1e1, c1e2, c1e3, c1e4, c1e5]

/-- Counterexample for C1: a break fires between `c1e2` and `c1e3` with only
two accumulated commands and minimum 3, yet records 1 and 2 are *not*
discarded — they end up in the single output session together with records
3–5, because the source neither finalizes nor resets a sub-minimum
session. -/
theorem c1_subminimum_discard_counterexample :
    (breakDecision c1Cfg c1e2 c1e3 0 0 "other").1 = true ∧
    (2 : Int) < c1Cfg.sessionHeuristics.minCommandsPerSession ∧
    (groupIntoSessions canonicalOrd exEnv c1Cfg c1Entries).map
      (fun s => s.commands.map (fun c => c.id)) = [[1, 2, 3, 4, 5]] := by decide

/-- C1 (corrected): when a break fires while the accumulated session has
fewer commands than the configured minimum, the accumulated commands are
*kept*: nothing is emitted, and the incoming record is appended to the same
accumulated session, so the sub-minimum run merges forward into the session
that contains `records[i]`.  (Commands are lost only when the input ends
while the accumulated session is still below the minimum.) -/
theorem c1_subminimum_merges_forward (ord : MapIterOrder) (env : DescEnv)
    (cfg : Config) (prev e : HistoryEntry) (st : SegState)
    (_hbk : (breakDecision cfg prev e st.cur.startTime st.ccc st.lastCategory).1 = true)
    (hlt : (st.cur.commands.length : Int) < cfg.sessionHeuristics.minCommandsPerSession) :
    (segStep ord env cfg prev e st).sessions = st.sessions ∧
    (segStep ord env cfg prev e st).cur.id = st.cur.id ∧
    (segStep ord env cfg prev e st).cur.commands =
      st.cur.commands ++ [{ e with sessionID := st.cur.id }] := by
  rw [segStep]
  rw [if_neg (by intro hand; exact absurd hand.2 (by simp only [not_le]; exact hlt))]
  refine ⟨rfl, rfl, rfl⟩

/-- Witness for C1's corrected statement: the state just before the break in
the counterexample trace. -/
def c1MidState : SegState :=
  { sessions := [],
    cur := { id := 1, startTime := 0, endTime := 0, duration := 0,
             commands := [{ c1e1 with sessionID := 1 }, { c1e2 with sessionID := 1 }],
             directories := [], categories := [("other", 2)], description := "" },
    dirSet := ["/h"], ccc := 0, lastCategory := "other" }

theorem c1_subminimum_merges_forward_witness :
    (segStep canonicalOrd exEnv c1Cfg c1e2 c1e3 c1MidState).sessions = c1MidState.sessions ∧
    (segStep canonicalOrd exEnv c1Cfg c1e2 c1e3 c1MidState).cur.id = c1MidState.cur.id ∧
    (segStep canonicalOrd exEnv c1Cfg c1e2 c1e3 c1MidState).cur.commands =
      c1MidState.cur.commands ++ [{ c1e3 with sessionID := c1MidState.cur.id }] :=
  c1_subminimum_merges_forward canonicalOrd exEnv c1Cfg c1e2 c1e3 c1MidState
    (by decide) (by decide)

/-! ## C2 — directory stamped on a `cd` record -/

/-- Counterexample for C2: parsing `cd code` from `/home/u` stamps the `cd`
record itself with the *newly resolved* directory `/home/u/code` (the source
updates `currentDir` before building the entry), not with the directory the
command was run from. -/
theorem c2_cd_stamp_counterexample :
    (parseLines exParams [": 100:0;cd code", ": 200:0;ls -la"] "/home/u" 1 none).map
      (fun e => (e.command, e.directory)) =
      [("cd code", "/home/u/code"), ("ls -la", "/home/u/code")] ∧
    resolveDirectory "/home/u" "/home/u" "code" = "/home/u/code" ∧
    ("/home/u/code" : String) ≠ "/home/u" := by decide

/-- C2 (corrected): a record whose command is a `cd` is stamped with the
*newly resolved* directory — the resolution happens before the entry is
built — and that same directory is the current directory for the records
that follow (the next record's stamp starts from it). -/
theorem c2_cd_record_gets_new_directory (P : ParserParams) (l0 l1 : String)
    (ls : List String) (cur : String) (id : Nat) (t d : Int) (c0 : String)
    (h0 : parseRecordLine l0 = some (t, d, c0))
    (t2 d2 : Int) (c2 : String) (h1 : parseRecordLine l1 = some (t2, d2, c2))
    (a : String) (ha : cdArg c0 = some a) :
    ∃ tail,
      parseLines P (l0 :: l1 :: ls) cur id none =
        mkEntry P id t d c0 (resolveDirectory P.homeDir cur (trimSpaceGo a)) ::
        mkEntry P (id + 1) t2 d2 c2
          (applyCd P.homeDir (resolveDirectory P.homeDir cur (trimSpaceGo a)) c2) ::
        tail := by
  refine ⟨parseLines P ls
    (applyCd P.homeDir (resolveDirectory P.homeDir cur (trimSpaceGo a)) c2) (id + 2) none, ?_⟩
  simp only [parseLines, h0, h1, List.foldl_nil, applyCd, ha]

/-- Witness for C2's corrected statement at the counterexample's input. -/
theorem c2_cd_record_gets_new_directory_witness :
    ∃ tail,
      parseLines exParams [": 100:0;cd code", ": 200:0;ls -la"] "/home/u" 1 none =
        mkEntry exParams 1 100 0 "cd code"
          (resolveDirectory exParams.homeDir "/home/u" (trimSpaceGo "code")) ::
        mkEntry exParams 2 200 0 "ls -la"
          (applyCd exParams.homeDir
            (resolveDirectory exParams.homeDir "/home/u" (trimSpaceGo "code")) "ls -la") ::
        tail :=
  c2_cd_record_gets_new_directory exParams ": 100:0;cd code" ": 200:0;ls -la" [] "/home/u" 1
    100 0 "cd code" (by decide) 200 0 "ls -la" (by decide) "code" (by decide)

/-! ## C4 — continuation lines -/

/-- Counterexample for C4: `contB` is a non-matching line immediately after
the matched record `echo B` and before the next matched record `echo C`,
but `echo B` was reached by reading ahead past the multi-line `echo A`
record, and the parser drops `contB` instead of appending it — `echo B`'s
text stays `"echo B"`. -/
theorem c4_continuation_counterexample :
    parseRecordLine "contB" = none ∧
    (parseLines exParams
        [": 1:0;echo A", "contA", ": 2:0;echo B", "contB", ": 3:0;echo C", ": 4:0;echo D"]
        "/home/u" 1 none).map (fun e => e.command) =
      ["echo A\ncontA", "echo B", "echo C", "echo D"] := by decide

/-- Collecting continuations: while a record is pending, a run of
non-matching lines is appended to the pending continuations. -/
theorem parseLines_collect_conts (P : ParserParams) (cs : List String)
    (hcs : ∀ x ∈ cs, parseRecordLine x = none) (tail : List String) (cur : String)
    (id : Nat) (ts dur : Int) (c0 : String) (conts : List String) :
    parseLines P (cs ++ tail) cur id (some (ts, dur, c0, conts)) =
      parseLines P tail cur id (some (ts, dur, c0, conts ++ cs)) := by
  induction cs generalizing conts with
  | nil => simp
  | cons x xs ih =>
    have hx := hcs x (by simp)
    rw [List.cons_append, parseLines, hx,
      ih (fun y hy => hcs y (by simp [hy])) (conts ++ [x])]
    simp

/-- C4 (corrected): a run of continuation lines that follows a record line
reached by the *outer* scan is appended to that record's text joined by
newlines; but when the previous record is one the parser reached by reading
ahead past a multi-line command, following continuation lines are dropped
(the read-ahead record is emitted from its raw text only, as the
counterexample shows). -/
theorem c4_continuations_appended_on_normal_path (P : ParserParams) (l0 : String)
    (t d : Int) (c0 : String) (h0 : parseRecordLine l0 = some (t, d, c0))
    (cs : List String) (hcs : ∀ x ∈ cs, parseRecordLine x = none)
    (r2 : String) (t2 d2 : Int) (c2 : String)
    (hr2 : parseRecordLine r2 = some (t2, d2, c2))
    (rest : List String) (cur : String) (id : Nat) :
    ∃ e tail,
      parseLines P (l0 :: (cs ++ r2 :: rest)) cur id none = e :: tail ∧
      e.command = cs.foldl (fun a x => a ++ "\n" ++ x) c0 := by
  simp only [parseLines, h0]
  rw [parseLines_collect_conts P cs hcs (r2 :: rest) cur id t d c0 []]
  simp only [parseLines, hr2, List.nil_append]
  exact ⟨_, _, rfl, by simp [mkEntry]⟩

/-- Witness for C4's corrected statement: `echo A`'s two continuation lines
are joined onto its text because `echo A` was reached by the outer scan. -/
theorem c4_continuations_appended_witness :
    ∃ e tail,
      parseLines exParams
          [": 1:0;echo A", "contA", "contA2", ": 2:0;echo B"] "/home/u" 1 none = e :: tail ∧
      e.command = ["contA", "contA2"].foldl (fun a x => a ++ "\n" ++ x) "echo A" :=
  c4_continuations_appended_on_normal_path exParams ": 1:0;echo A" 1 0 "echo A" (by decide)
    ["contA", "contA2"] (by decide) ": 2:0;echo B" 2 0 "echo B" (by decide) [] "/home/u" 1

/-! ## C10 — output commands are input records with only `SessionID` set -/

/-- Every command of `s` is an input record from `E` with `sessionID`
replaced by `s`'s own id. -/
def SessOk (E : List HistoryEntry) (s : Session) : Prop :=
  ∀ c ∈ s.commands, ∃ e ∈ E, c = { e with sessionID := s.id }

/-- The segmentation invariant: every emitted session and the in-progress
session satisfy `SessOk`. -/
def StOk (E : List HistoryEntry) (st : SegState) : Prop :=
  (∀ s ∈ st.sessions, SessOk E s) ∧ SessOk E st.cur

theorem sessOk_finalize {E : List HistoryEntry} {ord : MapIterOrder} {env : DescEnv}
    {ts : Int} {cur : Session} {ds : List String} (h : SessOk E cur) :
    SessOk E (finalizeSession ord env ts cur ds) := by
  intro c hc
  have hcm : (finalizeSession ord env ts cur ds).commands = cur.commands := rfl
  have hid : (finalizeSession ord env ts cur ds).id = cur.id := rfl
  rw [hcm] at hc
  rw [hid]
  exact h c hc

theorem stOk_appendEntry {E : List HistoryEntry} {st : SegState} {e : HistoryEntry}
    (h : StOk E st) (he : e ∈ E) : StOk E (appendEntry st e) := by
  refine ⟨h.1, ?_⟩
  intro c hc
  have hcm : (appendEntry st e).cur.commands =
      st.cur.commands ++ [{ e with sessionID := st.cur.id }] := rfl
  have hid : (appendEntry st e).cur.id = st.cur.id := rfl
  rw [hcm] at hc
  rw [hid]
  rcases List.mem_append.1 hc with hold | hnew
  · exact h.2 c hold
  · simp only [List.mem_singleton] at hnew
    exact ⟨e, he, hnew⟩

theorem stOk_segStep {E : List HistoryEntry} {ord : MapIterOrder} {env : DescEnv}
    {cfg : Config} {prev e : HistoryEntry} {st : SegState}
    (h : StOk E st) (he : e ∈ E) : StOk E (segStep ord env cfg prev e st) := by
  rw [segStep]
  split
  · apply stOk_appendEntry _ he
    constructor
    · intro s hs
      rcases List.mem_append.1 hs with hold | hnew
      · exact h.1 s hold
      · simp only [List.mem_singleton] at hnew
        subst hnew
        exact sessOk_finalize h.2
    · intro c hc
      simp [initSession] at hc
  · exact stOk_appendEntry ⟨h.1, h.2⟩ he

theorem stOk_segLoop {E : List HistoryEntry} {ord : MapIterOrder} {env : DescEnv}
    {cfg : Config} (prev : HistoryEntry) (rest : List HistoryEntry) (st : SegState)
    (h : StOk E st) (hrest : ∀ x ∈ rest, x ∈ E) :
    ∀ s ∈ segLoop ord env cfg prev rest st, SessOk E s := by
  induction rest generalizing prev st with
  | nil =>
    intro s hs
    rw [segLoop] at hs
    split at hs
    · rcases List.mem_append.1 hs with hold | hnew
      · exact h.1 s hold
      · simp only [List.mem_singleton] at hnew
        subst hnew
        exact sessOk_finalize h.2
    · exact h.1 s hs
  | cons x xs ih =>
    intro s hs
    rw [segLoop] at hs
    exact ih x (segStep ord env cfg prev x st)
      (stOk_segStep h (hrest x (by simp)))
      (fun y hy => hrest y (by simp [hy])) s hs

/-- C10: `GroupIntoSessions` does not alter its input records (in Go the
range variable is a by-value copy, and in this pure embedding the input list
is untouched by construction); every command stored in an output session
equals some input record in every field except `SessionID`, which equals
the id of the session holding it. -/
theorem c10_output_commands_from_inputs (ord : MapIterOrder) (env : DescEnv)
    (cfg : Config) (entries : List HistoryEntry) (s : Session) (c : HistoryEntry)
    (hs : s ∈ groupIntoSessions ord env cfg entries) (hc : c ∈ s.commands) :
    ∃ e ∈ entries, c = { e with sessionID := s.id } := by
  cases entries with
  | nil => simp [groupIntoSessions] at hs
  | cons e0 rest =>
    rw [groupIntoSessions] at hs
    have h0 : StOk (e0 :: rest)
        { sessions := [], cur := initSession 1 e0.timestamp,
          dirSet := [], ccc := 0, lastCategory := "" } := by
      constructor
      · intro s hs'
        simp at hs'
      · intro c hc'
        simp [initSession] at hc'
    have h1 := stOk_appendEntry h0 (List.mem_cons_self e0 rest)
    exact stOk_segLoop e0 rest _ h1 (fun x hx => List.mem_cons_of_mem e0 hx) s hs c hc

/-- Witness for C10, extracted from a concrete segmentation run. -/
theorem c10_output_commands_from_inputs_witness :
    ∃ e ∈ c6Entries,
      ((groupIntoSessions canonicalOrd exEnv c6Cfg c6Entries).headD (initSession 0 0)).commands.headD
          (mkPlainEntry 0 0 "") =
        { e with sessionID :=
            ((groupIntoSessions canonicalOrd exEnv c6Cfg c6Entries).headD (initSession 0 0)).id } :=
  c10_output_commands_from_inputs canonicalOrd exEnv c6Cfg c6Entries
    ((groupIntoSessions canonicalOrd exEnv c6Cfg c6Entries).headD (initSession 0 0))
    (((groupIntoSessions canonicalOrd exEnv c6Cfg c6Entries).headD (initSession 0 0)).commands.headD
      (mkPlainEntry 0 0 ""))
    (by decide) (by decide)

/-! ## C3 — determinism of segmentation -/

/-- The order-insensitive kernel of a session: everything except the
`Directories` list and the description string, which are computed through
map iteration. -/
def sessionCore (s : Session) :
    Nat × Int × Int × Int × List HistoryEntry × List (String × Nat) :=
  (s.id, s.startTime, s.endTime, s.duration, s.commands, s.categories)

/-- An alternative map iteration order that visits the `dirSet` keys in
reverse insertion order — a legitimate enumeration of the same map. -/
def revDirOrd : MapIterOrder := ⟨List.reverse, id, id, id⟩

def c3e1 : HistoryEntry := mkPlainEntry 1 0 "/a"

def c3e2 : HistoryEntry := mkPlainEntry 2 300 "/b"

def c3Entries : List HistoryEntry := [c3e1, c3e2]

/-- Counterexample for C3: the output of `GroupIntoSessions` depends on the
iteration order of the `dirSet` map, which Go leaves unspecified (and
randomizes at runtime): two legitimate enumerations of the same two-element
directory set yield sessions whose `Directories` lists differ, so two runs
on the same records and configuration need not be structurally identical. -/
theorem c3_order_sensitivity_counterexample :
    List.Perm (revDirOrd.dirOrder ["/a", "/b"]) ["/a", "/b"] ∧
    (groupIntoSessions canonicalOrd exEnv c6Cfg c3Entries).map (fun s => s.commands) =
      (groupIntoSessions revDirOrd exEnv c6Cfg c3Entries).map (fun s => s.commands) ∧
    (groupIntoSessions canonicalOrd exEnv c6Cfg c3Entries).map (fun s => s.directories) =
      [["/a", "/b"]] ∧
    (groupIntoSessions revDirOrd exEnv c6Cfg c3Entries).map (fun s => s.directories) =
      [["/b", "/a"]] ∧
    groupIntoSessions canonicalOrd exEnv c6Cfg c3Entries ≠
      groupIntoSessions revDirOrd exEnv c6Cfg c3Entries := by decide

/-- Two segmentation states that agree on everything except the
order-sensitive fields of already-emitted sessions. -/
def segAgree (st1 st2 : SegState) : Prop :=
  st1.sessions.map sessionCore = st2.sessions.map sessionCore ∧
  st1.cur = st2.cur ∧ st1.dirSet = st2.dirSet ∧ st1.ccc = st2.ccc ∧
  st1.lastCategory = st2.lastCategory

theorem sessionCore_finalize (ord : MapIterOrder) (env : DescEnv) (ts : Int)
    (cur : Session) (ds : List String) :
    sessionCore (finalizeSession ord env ts cur ds) =
      (cur.id, cur.startTime, ts, subNs ts cur.startTime, cur.commands, cur.categories) := rfl

theorem segAgree_appendEntry {st1 st2 : SegState} (e : HistoryEntry)
    (h : segAgree st1 st2) : segAgree (appendEntry st1 e) (appendEntry st2 e) := by
  obtain ⟨hs, hc, hd, hccc, hl⟩ := h
  rw [appendEntry, appendEntry, hc, hd]
  exact ⟨hs, rfl, rfl, hccc, rfl⟩

theorem segAgree_segStep {st1 st2 : SegState} (ord1 ord2 : MapIterOrder)
    (env1 env2 : DescEnv) (cfg : Config) (prev e : HistoryEntry)
    (h : segAgree st1 st2) :
    segAgree (segStep ord1 env1 cfg prev e st1) (segStep ord2 env2 cfg prev e st2) := by
  obtain ⟨hs, hc, hd, hccc, hl⟩ := h
  have hlen : st1.sessions.length = st2.sessions.length := by
    have := congrArg List.length hs
    simpa using this
  rw [segStep, segStep, hc, hccc, hl]
  split
  · apply segAgree_appendEntry
    refine ⟨?_, ?_, rfl, rfl, rfl⟩
    · simp only [List.map_append, List.map_cons, List.map_nil, hs, hd, sessionCore_finalize]
    · simp [List.length_append, hlen, hd]
  · exact segAgree_appendEntry e ⟨hs, rfl, hd, rfl, rfl⟩

theorem segAgree_segLoop (ord1 ord2 : MapIterOrder) (env1 env2 : DescEnv)
    (cfg : Config) (prev : HistoryEntry) (rest : List HistoryEntry)
    (st1 st2 : SegState) (h : segAgree st1 st2) :
    (segLoop ord1 env1 cfg prev rest st1).map sessionCore =
    (segLoop ord2 env2 cfg prev rest st2).map sessionCore := by
  induction rest generalizing prev st1 st2 with
  | nil =>
    obtain ⟨hs, hc, hd, hccc, hl⟩ := h
    rw [segLoop, segLoop, hc]
    split
    · rw [hd, List.map_append, List.map_append, hs]
      simp [sessionCore_finalize]
    · exact hs
  | cons x xs ih =>
    rw [segLoop, segLoop]
    exact ih x _ _ (segAgree_segStep ord1 ord2 env1 env2 cfg prev x h)

/-- C3 (corrected): session *boundaries* are deterministic — for any two map
iteration orders (and any two environments) the segmentations agree on every
session's id, start/end time, duration, command list and category counts;
but, as the counterexample shows, the `Directories` lists (and with them the
frequency tie-breaks feeding the description) follow Go's unspecified map
iteration order, so two runs need not be structurally identical. -/
theorem c3_boundaries_deterministic (ord1 ord2 : MapIterOrder) (env1 env2 : DescEnv)
    (cfg : Config) (entries : List HistoryEntry) :
    (groupIntoSessions ord1 env1 cfg entries).map sessionCore =
    (groupIntoSessions ord2 env2 cfg entries).map sessionCore := by
  cases entries with
  | nil => rfl
  | cons e0 rest =>
    rw [groupIntoSessions, groupIntoSessions]
    exact segAgree_segLoop ord1 ord2 env1 env2 cfg e0 rest _ _
      (segAgree_appendEntry e0 ⟨rfl, rfl, rfl, rfl, rfl⟩)
